import Mathlib

/-!
Shallow embedding of `src/vs/workbench/contrib/terminal/browser/terminalEditorService.ts`
(class `TerminalEditorService`).

The service is single-threaded UI bookkeeping: maps from a virtual-document
identity (the resource path string) to editor inputs, launch configurations and
cleanup subscriptions, plus the ordered list of live terminal instances and the
active-instance index.  We model it as a state record and each method / event
handler as a function on that state.  Emitter firings are recorded in an
append-only event log; `dispose()` calls on editor inputs and on subscription
handles are recorded in append-only logs as well, since disposal of external
objects is the only effect that escapes the state record.
-/

namespace TerminalEditorServiceModel

/-- A virtual-document identity (vs/base/common/uri).  Only the `path` component
is used by the service (`resource.path` is the map key); the title fragment of a
terminal URI does not participate in identity here. -/
structure URI where
  path : String
deriving DecidableEq, Repr

/-- vs/platform/terminal TerminalLocation. -/
inductive TerminalLocation where
  | Panel
  | Editor
deriving DecidableEq, Repr

/-- The fields of ITerminalInstance observed by this service: the opaque numeric
id, the virtual-document identity, and the target location (mutated to `Editor`
by `getOrCreateResource`).  Structural equality stands in for the reference
equality (`===`) used by the TypeScript code; instances are only ever created
with fresh ids, so the two coincide on reachable states. -/
structure ITerminalInstance where
  instanceId : Nat
  resource : URI
  target : TerminalLocation
deriving DecidableEq, Repr

/-- The fields of TerminalEditorInput observed by this service: a fresh id
standing for object identity, the resource, and the wrapped instance. -/
structure TerminalEditorInput where
  inputId : Nat
  resource : URI
  terminalInstance : Option ITerminalInstance
deriving DecidableEq, Repr

/-- DeserializedTerminalEditorInput: a detached-backend descriptor (it has a
`pid`) together with the serialized resource. -/
structure DeserializedTerminalEditorInput where
  pid : Nat
  resource : URI
deriving DecidableEq, Repr

/-- ICreateTerminalOptions as built at line 199 of the source:
`{ config: { attachPersistentProcess }, target: TerminalLocation.Editor }`.
The attached persistent process is reduced to its pid. -/
structure ICreateTerminalOptions where
  attachPersistentProcess : Option Nat
  target : TerminalLocation
deriving DecidableEq, Repr

/-- The two cleanup subscriptions wired by `_registerInstance`
(`instance.onDidFocus` and `instance.onDisposed` forwarders), with the instance
they were subscribed on.  In the source these are opaque `IDisposable[]`. -/
structure SubEntry where
  focusSubId : Nat
  disposeSubId : Nat
  subject : ITerminalInstance
deriving DecidableEq, Repr

/-- Notifications fired by the service's four emitters. -/
inductive Event where
  | disposeInstance (i : ITerminalInstance)
  | focusInstance (i : ITerminalInstance)
  | changeActiveInstance (i : Option ITerminalInstance)
  | changeInstances
deriving DecidableEq, Repr

/-- The union type `ITerminalInstance | DeserializedTerminalEditorInput | URI`
taken by `getOrCreateResource`.  The TypeScript duck-typing tests
(`'pid' in x`, `URI.isUri x`, `'instanceId' in x`) become constructor matches. -/
inductive InstanceOrUri where
  | inst (i : ITerminalInstance)
  | deserialized (d : DeserializedTerminalEditorInput)
  | uri (u : URI)
deriving DecidableEq, Repr

/-- `instanceOrUri && URI.isUri(instanceOrUri) ? instanceOrUri : instanceOrUri.resource`. -/
def InstanceOrUri.resource : InstanceOrUri → URI
  | .inst i => i.resource
  | .deserialized d => d.resource
  | .uri u => u

/-! ### JS `Map` on string keys, as an association list -/

/-- `Map.get`. -/
def mapGet (m : List (String × α)) (k : String) : Option α :=
  (m.find? (fun p => p.1 == k)).map (fun p => p.2)

/-- `Map.delete`. -/
def mapDelete (m : List (String × α)) (k : String) : List (String × α) :=
  m.filter (fun p => p.1 != k)

/-- `Map.set`: replaces any existing binding for `k`.  (Insertion order, which a
JS `Map` also maintains, is not observed by the logic modelled here.) -/
def mapSet (m : List (String × α)) (k : String) (v : α) : List (String × α) :=
  (k, v) :: mapDelete m k

/-! ### JS array helpers -/

/-- Index of the first element satisfying `p`, as an option
(`Array.prototype.findIndex` returns `-1` for `none`). -/
def findIdxO (p : α → Bool) : List α → Option Nat
  | [] => none
  | x :: rest => if p x then some 0 else (findIdxO p rest).map (· + 1)

/-- `Array.prototype.findIndex`, with the JS `-1` convention. -/
def jsFindIndex (p : α → Bool) (xs : List α) : Int :=
  match findIdxO p xs with
  | some i => Int.ofNat i
  | none => -1

/-- TS `xs[i]` for an `Int` index: `undefined` (`none`) when out of range. -/
def tsIndex (xs : List α) (i : Int) : Option α :=
  if i < 0 then none else xs.get? i.toNat

/-- `xs.splice(idx, 1)` guarded by `findIndex(...) !== -1`: remove the first
element equal to `a`, when present. -/
def spliceFirst [DecidableEq α] (xs : List α) (a : α) : List α :=
  match findIdxO (fun e => decide (e = a)) xs with
  | some i => xs.eraseIdx i
  | none => xs

/-! ### Service state -/

/-- The mutable fields of `TerminalEditorService`, together with the logs that
record effects on external objects (emitter firings, `dispose()` calls,
`detachInstance()` calls on inputs) and a fresh-id supply for objects produced
by the external factories. -/
structure TerminalEditorService where
  instances : List ITerminalInstance
  activeInstanceIndex : Int
  isShuttingDown : Bool
  editorInputs : List (String × TerminalEditorInput)
  launchConfigs : List (String × ICreateTerminalOptions)
  instanceDisposables : List (String × SubEntry)
  pendingDetachRequests : List String
  events : List Event
  disposedInputs : List Nat
  detachedInputs : List Nat
  disposedSubscriptions : List Nat
  nextId : Nat
deriving DecidableEq, Repr

/-- The state right after the constructor ran (empty maps, no instances,
active index `-1`, not shutting down). -/
def initialState : TerminalEditorService :=
  { instances := []
    activeInstanceIndex := -1
    isShuttingDown := false
    editorInputs := []
    launchConfigs := []
    instanceDisposables := []
    pendingDetachRequests := []
    events := []
    disposedInputs := []
    detachedInputs := []
    disposedSubscriptions := []
    nextId := 1 }

/-! ### External collaborators (not part of the excerpt) -/

/-- Modelled from the spec: `getTerminalUri` (terminal URI helper module, not in
the source excerpt).  Per the spec's glossary an identity is the virtual-document
URI uniquely naming a terminal; it is built from the workspace id and the
instance id (the title does not enter the path identity). -/
def getTerminalUri (workspaceId : String) (instanceId : Nat) (_title : String) : URI :=
  ⟨"/" ++ workspaceId ++ "/" ++ toString instanceId⟩

/-- Result of `parseTerminalUri`. -/
structure ParsedTerminalUri where
  workspaceId : String
  instanceId : Option Nat
deriving DecidableEq, Repr

/-- Split a character list on `/` (auxiliary for `parseTerminalUri`). -/
def splitSlash : List Char → List (List Char)
  | [] => [[]]
  | c :: rest =>
    if c = '/' then [] :: splitSlash rest
    else
      match splitSlash rest with
      | [] => [[c]]
      | seg :: segs => (c :: seg) :: segs

/-- Parse a non-empty all-digit character list as a number (auxiliary for
`parseTerminalUri`). -/
def parseNat (cs : List Char) : Option Nat :=
  if cs = [] then none
  else
    cs.foldl
      (fun acc? c =>
        match acc? with
        | some acc => if c.isDigit then some (acc * 10 + (c.toNat - 48)) else none
        | none => none)
      (some 0)

/-- Modelled from the spec: `parseTerminalUri` (terminal URI helper module, not
in the source excerpt), the partial inverse of `getTerminalUri`: it splits the
path `/workspaceId/instanceId` back into its components; a malformed or
non-numeric path yields no instance id. -/
def parseTerminalUri (u : URI) : ParsedTerminalUri :=
  match splitSlash u.path.toList with
  | [] :: ws :: i :: _ => ⟨String.mk ws, parseNat i⟩
  | _ => ⟨"", none⟩

/-- Modelled from the spec: the Session Factory collaborator
`createInstance(launchConfigOrDescriptor, targetKind, identity?) -> Session`
(spec section 6).  It materializes a fresh live session carrying the given
identity (the identity passed explicitly, or for a detached-backend descriptor
the descriptor's serialized identity). -/
def createInstance (s : TerminalEditorService) (resource : URI)
    (target : TerminalLocation) : ITerminalInstance × TerminalEditorService :=
  (⟨s.nextId, resource, target⟩, { s with nextId := s.nextId + 1 })

/-- Modelled from the spec: `instantiationService.createInstance(TerminalEditorInput,
resource, instance)` — the Tab Handle constructor (not in the source excerpt); it
wraps the session in a fresh editor-tab object for the given identity. -/
def createEditorInput (s : TerminalEditorService) (resource : URI)
    (inst : ITerminalInstance) : TerminalEditorInput × TerminalEditorService :=
  (⟨s.nextId, resource, some inst⟩, { s with nextId := s.nextId + 1 })

/-! ### The service's operations (source lines 142-299) -/

/-- `get activeInstance()` (lines 142-147). -/
def activeInstance (s : TerminalEditorService) : Option ITerminalInstance :=
  if s.instances.length = 0 ∨ s.activeInstanceIndex = -1 then none
  else tsIndex s.instances s.activeInstanceIndex

/-- `_setActiveInstance` (lines 153-160). -/
def _setActiveInstance (s : TerminalEditorService) (inst : Option ITerminalInstance) :
    TerminalEditorService :=
  let s1 :=
    match inst with
    | none => { s with activeInstanceIndex := -1 }
    | some i => { s with activeInstanceIndex := jsFindIndex (fun e => decide (e = i)) s.instances }
  { s1 with events := s1.events ++ [Event.changeActiveInstance (activeInstance s1)] }

/-- `setActiveInstance` (lines 149-151). -/
def setActiveInstance (s : TerminalEditorService) (inst : ITerminalInstance) :
    TerminalEditorService :=
  _setActiveInstance s (some inst)

/-- `_registerInstance` (lines 228-236): store the input, wire the two cleanup
subscriptions (focus forwarder, dispose forwarder), append the instance, fire
`_onDidChangeInstances`. -/
def _registerInstance (s : TerminalEditorService) (inputKey : String)
    (input : TerminalEditorInput) (inst : ITerminalInstance) : TerminalEditorService :=
  { s with
    editorInputs := mapSet s.editorInputs inputKey input
    instanceDisposables := mapSet s.instanceDisposables inputKey ⟨s.nextId, s.nextId + 1, inst⟩
    instances := s.instances ++ [inst]
    events := s.events ++ [Event.changeInstances]
    nextId := s.nextId + 2 }

/-- `getOrCreateResource` (lines 184-212).  Returns `URI | TerminalEditorInput`
as a sum, together with the updated state.  The asynchronous
`requestDetachInstance` call of the cross-window branch is recorded as a pending
request (its `.then` continuation is `deliverDetachResponse` below); the
synchronous return value of that branch is the fixed placeholder URI of
line 211. -/
def getOrCreateResource (s : TerminalEditorService) (instanceOrUri : InstanceOrUri) :
    (URI ⊕ TerminalEditorInput) × TerminalEditorService :=
  let resource := instanceOrUri.resource
  let inputKey := resource.path
  match mapGet s.editorInputs inputKey with
  | some cachedEditor => (Sum.inr cachedEditor, s)
  | none =>
    match instanceOrUri with
    | .deserialized d =>
      -- 'pid' in instanceOrUri: revive the instance, then fall through to the
      -- 'instanceId' branch with the revived instance.
      let (inst, s1) := createInstance s d.resource TerminalLocation.Editor
      let (input, s2) := createEditorInput s1 resource inst
      (Sum.inr input, _registerInstance s2 inputKey input inst)
    | .uri u =>
      -- Terminal from a different window: fire-and-forget requestDetachInstance
      -- (JS truthiness: an instanceId of 0 does not trigger the request), then
      -- fall through to the line-211 placeholder.
      let s1 :=
        match (parseTerminalUri u).instanceId with
        | some i =>
          if i ≠ 0 then { s with pendingDetachRequests := s.pendingDetachRequests ++ [inputKey] }
          else s
        | none => s
      (Sum.inl (getTerminalUri "dfsldjfkdslfsjdflksdjf" 2 "fake"), s1)
    | .inst i0 =>
      -- 'instanceId' in instanceOrUri: instanceOrUri.target = TerminalLocation.Editor
      let inst := { i0 with target := TerminalLocation.Editor }
      let (input, s2) := createEditorInput s resource inst
      (Sum.inr input, _registerInstance s2 inputKey input inst)

/-- The `.then` continuation of `requestDetachInstance` (lines 198-202): when the
off-process backend answers a pending detach request, store the launch
configuration `{ config: { attachPersistentProcess }, target: Editor }` under the
identity's key. -/
def deliverDetachResponse (s : TerminalEditorService) (inputKey : String) (pid : Nat) :
    TerminalEditorService :=
  if inputKey ∈ s.pendingDetachRequests then
    { s with
      launchConfigs := mapSet s.launchConfigs inputKey ⟨some pid, TerminalLocation.Editor⟩
      pendingDetachRequests := s.pendingDetachRequests.erase inputKey }
  else s

/-- `detachInstance` (lines 268-287). -/
def detachInstance (s : TerminalEditorService) (inst : ITerminalInstance) :
    TerminalEditorService :=
  let inputKey := inst.resource.path
  let editorInput := mapGet s.editorInputs inputKey
  -- editorInput?.detachInstance()
  let detachedInputs :=
    match editorInput with
    | some input => s.detachedInputs ++ [input.inputId]
    | none => s.detachedInputs
  let editorInputs := mapDelete s.editorInputs inputKey
  let instances := spliceFirst s.instances inst
  -- Don't dispose the input when shutting down to avoid layouts in the editor area
  let disposedInputs :=
    if s.isShuttingDown then s.disposedInputs
    else
      match editorInput with
      | some input => s.disposedInputs ++ [input.inputId]
      | none => s.disposedInputs
  let disposables := mapGet s.instanceDisposables inputKey
  let instanceDisposables := mapDelete s.instanceDisposables inputKey
  let disposedSubscriptions :=
    match disposables with
    | some e => s.disposedSubscriptions ++ [e.focusSubId, e.disposeSubId]
    | none => s.disposedSubscriptions
  { s with
    editorInputs := editorInputs
    instances := instances
    detachedInputs := detachedInputs
    disposedInputs := disposedInputs
    instanceDisposables := instanceDisposables
    disposedSubscriptions := disposedSubscriptions
    events := s.events ++ [Event.changeInstances] }

/-- `resolveResource` (lines 289-299).  The `throw` becomes an `Except.error`
result; the state component is returned unchanged in that case (the TypeScript
method throws before performing any mutation). -/
def resolveResource (s : TerminalEditorService) (resource : URI) :
    Except String TerminalEditorInput × TerminalEditorService :=
  match mapGet s.launchConfigs resource.path with
  | some launchConfig =>
    let (inst, s1) := createInstance s resource launchConfig.target
    let (input, s2) := createEditorInput s1 resource inst
    (Except.ok input, _registerInstance s2 resource.path input inst)
  | none => (Except.error "could not resolve resource", s)

/-! ### The constructor's event handlers (source lines 59-101) -/

/-- An entry of `editorService.visibleEditors` / `onDidCloseEditor`: either a
terminal editor input or some other editor. -/
inductive EditorInput where
  | terminal (t : TerminalEditorInput)
  | other (id : Nat)
deriving DecidableEq, Repr

/-- `_getActiveTerminalEditors` (lines 104-106): the visible editors that are
terminal inputs with a truthy `terminalInstance?.instanceId` (JS truthiness: an
instance id of 0 is filtered out). -/
def _getActiveTerminalEditors (visibleEditors : List EditorInput) : List EditorInput :=
  visibleEditors.filter (fun e =>
    match e with
    | .terminal t =>
      match t.terminalInstance with
      | some ti => ti.instanceId != 0
      | none => false
    | .other _ => false)

/-- The `onDidVisibleEditorsChange` handler (lines 73-88): adopt at most one
terminal editor created out of band (e.g. via the editor-service split command)
whose instance id is unknown, by inserting its input into `_editorInputs` and
pushing its instance. -/
def onDidVisibleEditorsChange (s : TerminalEditorService)
    (visibleEditors : List EditorInput) : TerminalEditorService :=
  let knownIds := s.instances.map (fun i => i.instanceId)
  let terminalEditors := _getActiveTerminalEditors visibleEditors
  let unknownEditor := terminalEditors.find? (fun input =>
    match input with
    | .terminal t =>
      match t.terminalInstance with
      | some ti => !(knownIds.contains ti.instanceId)
      | none => false
    | .other _ => false)
  match unknownEditor with
  | some (.terminal t) =>
    match t.terminalInstance with
    | some ti =>
      { s with
        editorInputs := mapSet s.editorInputs ti.resource.path t
        instances := s.instances ++ [ti] }
    | none => s
  | _ => s

/-- The `onDidCloseEditor` handler (lines 93-101): when a terminal editor closes,
splice its instance out of the managed list (and do nothing else). -/
def onDidCloseEditor (s : TerminalEditorService) (closed : EditorInput) :
    TerminalEditorService :=
  match closed with
  | .terminal t =>
    match t.terminalInstance with
    | some inst => { s with instances := spliceFirst s.instances inst }
    | none => s
  | .other _ => s

/-- The `onDidActiveEditorChange` handler (lines 65-72): when the active editor
is a terminal input with a live instance, make that instance active.  (The
`setGroup` call touches only the external Tab Framework object.) -/
def onDidActiveEditorChange (s : TerminalEditorService) (activeEditor : Option EditorInput) :
    TerminalEditorService :=
  match activeEditor with
  | some (.terminal t) =>
    match t.terminalInstance with
    | some inst => _setActiveInstance s (some inst)
    | none => s
  | _ => s

/-- The `lifecycleService.onWillShutdown` handler (line 64). -/
def onWillShutdown (s : TerminalEditorService) : TerminalEditorService :=
  { s with isShuttingDown := true }

/-- Delivery of an instance's `onDisposed` event: if the dispose-forwarder
subscription wired by `_registerInstance` for this instance is still live, the
`_onDidDisposeInstance` emitter fires, and its constructor-registered listener
(line 89) runs `detachInstance`. -/
def handleInstanceDisposed (s : TerminalEditorService) (inst : ITerminalInstance) :
    TerminalEditorService :=
  match mapGet s.instanceDisposables inst.resource.path with
  | some e =>
    if e.subject = inst then
      detachInstance { s with events := s.events ++ [Event.disposeInstance inst] } inst
    else s
  | none => s

/-- Delivery of an instance's `onDidFocus` event: if the focus-forwarder
subscription is still live, the `_onDidFocusInstance` emitter fires. -/
def handleInstanceFocus (s : TerminalEditorService) (inst : ITerminalInstance) :
    TerminalEditorService :=
  match mapGet s.instanceDisposables inst.resource.path with
  | some e =>
    if e.subject = inst then { s with events := s.events ++ [Event.focusInstance inst] }
    else s
  | none => s

/-! ### Driving the service: operation traces -/

/-- One externally triggered step of the service. -/
inductive Op where
  | getOrCreate (x : InstanceOrUri)
  | resolve (resource : URI)
  | detach (inst : ITerminalInstance)
  | deliverDetach (inputKey : String) (pid : Nat)
  | setActive (inst : ITerminalInstance)
  | visibleChange (editors : List EditorInput)
  | closeEditor (e : EditorInput)
  | activeEditorChange (e : Option EditorInput)
  | shutdown
  | instDisposed (inst : ITerminalInstance)
  | instFocused (inst : ITerminalInstance)
deriving DecidableEq, Repr

/-- Apply one step (return values discarded). -/
def applyOp (s : TerminalEditorService) : Op → TerminalEditorService
  | .getOrCreate x => (getOrCreateResource s x).2
  | .resolve u => (resolveResource s u).2
  | .detach i => detachInstance s i
  | .deliverDetach k pid => deliverDetachResponse s k pid
  | .setActive i => setActiveInstance s i
  | .visibleChange es => onDidVisibleEditorsChange s es
  | .closeEditor e => onDidCloseEditor s e
  | .activeEditorChange e => onDidActiveEditorChange s e
  | .shutdown => onWillShutdown s
  | .instDisposed i => handleInstanceDisposed s i
  | .instFocused i => handleInstanceFocus s i

/-- Run a trace of steps from a state. -/
def run (s : TerminalEditorService) (ops : List Op) : TerminalEditorService :=
  ops.foldl applyOp s

/-- A trace of `getOrCreateResource` calls only (return values discarded). -/
def runGetOrCreates (s : TerminalEditorService) (xs : List InstanceOrUri) :
    TerminalEditorService :=
  xs.foldl (fun t x => (getOrCreateResource t x).2) s

/-- The identities of the live session list. -/
def liveIdentities (s : TerminalEditorService) : List String :=
  s.instances.map (fun i => i.resource.path)

/-- The keys of an association-list map. -/
def mapKeys (m : List (String × α)) : List String :=
  m.map (fun p => p.1)

/-! ### Lemmas about the map and array helpers -/

theorem mapGet_mapSet_self (m : List (String × α)) (k : String) (v : α) :
    mapGet (mapSet m k v) k = some v := by
  simp [mapGet, mapSet, List.find?]

theorem mapGet_mapSet_ne (m : List (String × α)) (k k' : String) (v : α)
    (h : k ≠ k') : mapGet (mapSet m k v) k' = mapGet m k' := by
  simp only [mapGet, mapSet, mapDelete, List.find?]
  have hk : (k == k') = false := by simp [h]
  rw [hk]
  induction m with
  | nil => rfl
  | cons p rest ih =>
    by_cases hp : p.1 = k
    · have : (p.1 != k) = false := by simp [hp]
      simp only [List.filter, this]
      rw [ih]
      have : (p.1 == k') = false := by
        simp only [beq_eq_false_iff_ne]
        intro hc; exact h (hp ▸ hc ▸ rfl)
      simp [List.find?, this]
    · have : (p.1 != k) = true := by simp [hp]
      simp only [List.filter, this]
      by_cases hq : p.1 = k'
      · simp [List.find?, hq]
      · have hq' : (p.1 == k') = false := by simp [hq]
        simp only [List.find?, hq']
        exact ih

theorem mapGet_mapDelete_self (m : List (String × α)) (k : String) :
    mapGet (mapDelete m k) k = none := by
  simp only [mapGet, mapDelete]
  induction m with
  | nil => rfl
  | cons p rest ih =>
    by_cases hp : p.1 = k
    · have : (p.1 != k) = false := by simp [hp]
      simp only [List.filter, this]
      exact ih
    · have h1 : (p.1 != k) = true := by simp [hp]
      have h2 : (p.1 == k) = false := by simp [hp]
      simp only [List.filter, h1, List.find?, h2]
      exact ih

theorem mapGet_mapDelete_ne (m : List (String × α)) (k k' : String)
    (h : k ≠ k') : mapGet (mapDelete m k) k' = mapGet m k' := by
  simp only [mapGet, mapDelete]
  induction m with
  | nil => rfl
  | cons p rest ih =>
    by_cases hp : p.1 = k
    · have h1 : (p.1 != k) = false := by simp [hp]
      have h2 : (p.1 == k') = false := by
        simp only [beq_eq_false_iff_ne]
        intro hc; exact h (hp ▸ hc ▸ rfl)
      simp only [List.filter, h1, List.find?, h2]
      exact ih
    · have h1 : (p.1 != k) = true := by simp [hp]
      simp only [List.filter, h1]
      by_cases hq : p.1 = k'
      · simp [List.find?, hq]
      · have hq' : (p.1 == k') = false := by simp [hq]
        simp only [List.find?, hq']
        exact ih

theorem mapKeys_nodup_mapSet (m : List (String × α)) (k : String) (v : α)
    (h : (mapKeys m).Nodup) : (mapKeys (mapSet m k v)).Nodup := by
  simp only [mapKeys] at h
  simp only [mapKeys, mapSet, List.map_cons, List.nodup_cons]
  constructor
  · intro hmem
    simp only [mapDelete, List.mem_map] at hmem
    obtain ⟨p, hp, hpk⟩ := hmem
    rw [List.mem_filter] at hp
    have := hp.2
    rw [hpk] at this
    simp at this
  · have hsub : List.Sublist (mapDelete m k) m := List.filter_sublist m
    exact h.sublist (hsub.map (fun p => p.1))

theorem mapKeys_nodup_mapDelete (m : List (String × α)) (k : String)
    (h : (mapKeys m).Nodup) : (mapKeys (mapDelete m k)).Nodup := by
  have hsub : List.Sublist (mapDelete m k) m := List.filter_sublist m
  simp only [mapKeys] at h ⊢
  exact h.sublist (hsub.map (fun p => p.1))

theorem findIdxO_eq_none_of_not_mem [DecidableEq α] (xs : List α) (a : α)
    (h : a ∉ xs) : findIdxO (fun e => decide (e = a)) xs = none := by
  induction xs with
  | nil => rfl
  | cons x rest ih =>
    have hx : x ≠ a := fun hc => h (hc ▸ List.mem_cons_self x rest)
    have hr : a ∉ rest := fun hc => h (List.mem_cons_of_mem x hc)
    simp [findIdxO, hx, ih hr]

theorem findIdxO_get [DecidableEq α] (xs : List α) (a : α) (i : Nat)
    (h : findIdxO (fun e => decide (e = a)) xs = some i) : xs.get? i = some a := by
  induction xs generalizing i with
  | nil => simp [findIdxO] at h
  | cons x rest ih =>
    by_cases hx : x = a
    · subst hx
      simp [findIdxO] at h
      simp [← h]
    · simp only [findIdxO, decide_eq_true_eq, if_neg hx, Option.map_eq_some'] at h
      obtain ⟨j, hj, hji⟩ := h
      subst hji
      simpa using ih j hj

theorem findIdxO_isSome_of_mem [DecidableEq α] (xs : List α) (a : α)
    (h : a ∈ xs) : ∃ i, findIdxO (fun e => decide (e = a)) xs = some i := by
  induction xs with
  | nil => cases h
  | cons x rest ih =>
    by_cases hx : x = a
    · exact ⟨0, by simp [findIdxO, hx]⟩
    · have hr : a ∈ rest := by
        rcases List.mem_cons.mp h with h1 | h1
        · exact absurd h1.symm hx
        · exact h1
      obtain ⟨i, hi⟩ := ih hr
      exact ⟨i + 1, by simp [findIdxO, hx, hi]⟩

theorem spliceFirst_of_not_mem [DecidableEq α] (xs : List α) (a : α)
    (h : a ∉ xs) : spliceFirst xs a = xs := by
  simp [spliceFirst, findIdxO_eq_none_of_not_mem xs a h]

theorem spliceFirst_count [DecidableEq α] (xs : List α) (a : α) (h : a ∈ xs) :
    (spliceFirst xs a).count a + 1 = xs.count a := by
  induction xs with
  | nil => cases h
  | cons x rest ih =>
    by_cases hx : x = a
    · subst hx
      simp [spliceFirst, findIdxO, List.count_cons]
    · have hr : a ∈ rest := by
        rcases List.mem_cons.mp h with h1 | h1
        · exact absurd h1.symm hx
        · exact h1
      have hcount := ih hr
      obtain ⟨i, hi⟩ := findIdxO_isSome_of_mem rest a hr
      have hsplice : spliceFirst (x :: rest) a = x :: spliceFirst rest a := by
        simp [spliceFirst, findIdxO, hx, hi]
      rw [hsplice]
      simp only [List.count_cons]
      have hxa : (x == a) = false := by simp [hx]
      simp [hxa]
      omega

theorem spliceFirst_not_mem_of_count_one [DecidableEq α] (xs : List α) (a : α)
    (h : xs.count a = 1) : a ∉ spliceFirst xs a := by
  have hmem : a ∈ xs := List.count_pos_iff.mp (by omega)
  have := spliceFirst_count xs a hmem
  rw [h] at this
  have hzero : (spliceFirst xs a).count a = 0 := by omega
  intro hc
  have := List.count_pos_iff.mpr hc
  omega

theorem mapDelete_of_get_none (m : List (String × α)) (k : String)
    (h : mapGet m k = none) : mapDelete m k = m := by
  simp only [mapGet, Option.map_eq_none', List.find?_eq_none] at h
  simp only [mapDelete]
  rw [List.filter_eq_self]
  intro p hp
  have := h p hp
  simpa using this

/-! ### Concrete fixtures used by counterexamples and witnesses -/

def uA : URI := ⟨"/w/10"⟩
def uB : URI := ⟨"/w/11"⟩
def u1 : URI := ⟨"/w1/5"⟩
def instA : ITerminalInstance := ⟨10, uA, TerminalLocation.Editor⟩
def instB : ITerminalInstance := ⟨11, uB, TerminalLocation.Editor⟩
def instC : ITerminalInstance := ⟨12, ⟨"/w/12"⟩, TerminalLocation.Editor⟩
def inputC : TerminalEditorInput := ⟨99, ⟨"/w/12"⟩, some instC⟩

/-- The editor input created by `getOrCreateResource initialState (.inst instA)`. -/
def inputA : TerminalEditorInput := ⟨1, uA, some instA⟩

/-- Reachable state with `instA` registered. -/
def sA : TerminalEditorService :=
  run initialState [Op.getOrCreate (InstanceOrUri.inst instA)]

/-- Reachable state with `instA` and `instB` registered and `instA` active. -/
def sAB : TerminalEditorService :=
  run initialState [Op.getOrCreate (InstanceOrUri.inst instA),
    Op.getOrCreate (InstanceOrUri.inst instB), Op.setActive instA]

/-- Reachable state with `instA` registered and the shutdown flag set. -/
def sShut : TerminalEditorService :=
  run initialState [Op.getOrCreate (InstanceOrUri.inst instA), Op.shutdown]

/-! ### C2 -/

/-- C2 counterexample: in the reachable state `sAB` the active session is
`instA`; `detachInstance sAB instA` removes it from the live list but does not
reset `_activeInstanceIndex`, so `activeInstance` afterwards yields the
different session `instB` instead of the absent value the claim requires. -/
theorem detachInstance_active_counterexample :
    activeInstance sAB = some instA ∧
    instA ∉ (detachInstance sAB instA).instances ∧
    activeInstance (detachInstance sAB instA) = some instB ∧
    instB ≠ instA := by decide

/-- C2 (amended): whenever `activeInstance` yields a session it is exactly the
element of `instances` at the stored index; but `detachInstance` never changes
the stored index, so after detaching the active session the getter yields
whatever session shifted into the old index (or the absent value when the index
falls out of range), not necessarily the absent value. -/
theorem activeInstance_index_consistent (s : TerminalEditorService) :
    (∀ inst, activeInstance s = some inst →
       ∃ i : Nat, s.activeInstanceIndex = Int.ofNat i ∧ s.instances.get? i = some inst) ∧
    (∀ inst, (detachInstance s inst).activeInstanceIndex = s.activeInstanceIndex) := by
  constructor
  · intro inst h
    simp only [activeInstance] at h
    split at h
    · exact absurd h (by simp)
    · simp only [tsIndex] at h
      split at h
      · exact absurd h (by simp)
      · refine ⟨s.activeInstanceIndex.toNat, ?_, h⟩
        have h0 : (0 : Int) ≤ s.activeInstanceIndex := by omega
        simpa using (Int.toNat_of_nonneg h0).symm
  · intro inst
    simp [detachInstance]

/-- Witness for the amended C2 at the reachable state `sAB`. -/
theorem activeInstance_index_consistent_witness :
    ∃ i : Nat, sAB.activeInstanceIndex = Int.ofNat i ∧ sAB.instances.get? i = some instA :=
  (activeInstance_index_consistent sAB).1 instA (by decide)

/-! ### C3 -/

/-- C3 counterexample: in the reachable state `sA` the identity `/w/10` is
registered; after the `onDidCloseEditor` handler runs for its tab, the session
is gone from the live list but both `_editorInputs` and `_instanceDisposables`
still contain the identity's key, contradicting the claim that the registry
holds no entry for it afterwards. -/
theorem onDidCloseEditor_keeps_maps_counterexample :
    mapGet sA.editorInputs uA.path = some inputA ∧
    instA ∈ sA.instances ∧
    (onDidCloseEditor sA (EditorInput.terminal inputA)).instances = [] ∧
    (mapGet (onDidCloseEditor sA (EditorInput.terminal inputA)).editorInputs uA.path).isSome
      = true ∧
    (mapGet (onDidCloseEditor sA (EditorInput.terminal inputA)).instanceDisposables
      uA.path).isSome = true := by decide

/-- C3 (amended): a tab-close notification for a tracked session removes the
session from the live list and does nothing else: the editor-input map, the
subscription map, the launch-config map and the event log are all unchanged. -/
theorem onDidCloseEditor_removes_from_list_only (s : TerminalEditorService)
    (e : EditorInput) :
    (onDidCloseEditor s e).editorInputs = s.editorInputs ∧
    (onDidCloseEditor s e).instanceDisposables = s.instanceDisposables ∧
    (onDidCloseEditor s e).launchConfigs = s.launchConfigs ∧
    (onDidCloseEditor s e).events = s.events ∧
    (∀ t inst, e = EditorInput.terminal t → t.terminalInstance = some inst →
       inst ∈ s.instances →
       (onDidCloseEditor s e).instances.count inst + 1 = s.instances.count inst) := by
  refine ⟨?_, ?_, ?_, ?_, ?_⟩ <;>
    first
      | (cases e with
         | terminal t =>
           cases ht : t.terminalInstance <;> simp [onDidCloseEditor, ht]
         | other n => simp [onDidCloseEditor])
      | skip
  intro t inst het hti hmem
  subst het
  simp only [onDidCloseEditor, hti]
  exact spliceFirst_count s.instances inst hmem

/-- Witness for the amended C3 at the reachable state `sA`. -/
theorem onDidCloseEditor_removes_from_list_only_witness :
    (onDidCloseEditor sA (EditorInput.terminal inputA)).instances.count instA + 1
      = sA.instances.count instA :=
  (onDidCloseEditor_removes_from_list_only sA (EditorInput.terminal inputA)).2.2.2.2
    inputA instA rfl (by decide) (by decide)

/-! ### C5 -/

/-- C5 counterexample: `instA` is not under management in `initialState`, yet
`detachInstance` still fires the session-list-changed notification
(`_onDidChangeInstances.fire()` runs unconditionally at the end of the method),
contradicting the claim that no notification is fired. -/
theorem detachInstance_unmanaged_fires_event :
    mapGet initialState.editorInputs uA.path = none ∧
    instA ∉ initialState.instances ∧
    (detachInstance initialState instA).events
      = initialState.events ++ [Event.changeInstances] ∧
    (detachInstance initialState instA).events ≠ initialState.events := by decide

/-- C5 (amended): `detachInstance` on an instance not under management leaves
every registry field unchanged (maps, live list, active index, disposal logs)
but still fires the session-list-changed notification exactly once. -/
theorem detachInstance_unmanaged_frame (s : TerminalEditorService)
    (inst : ITerminalInstance)
    (hinput : mapGet s.editorInputs inst.resource.path = none)
    (hmem : inst ∉ s.instances)
    (hsub : mapGet s.instanceDisposables inst.resource.path = none) :
    (detachInstance s inst).editorInputs = s.editorInputs ∧
    (detachInstance s inst).instances = s.instances ∧
    (detachInstance s inst).launchConfigs = s.launchConfigs ∧
    (detachInstance s inst).instanceDisposables = s.instanceDisposables ∧
    (detachInstance s inst).activeInstanceIndex = s.activeInstanceIndex ∧
    (detachInstance s inst).disposedInputs = s.disposedInputs ∧
    (detachInstance s inst).detachedInputs = s.detachedInputs ∧
    (detachInstance s inst).disposedSubscriptions = s.disposedSubscriptions ∧
    (detachInstance s inst).events = s.events ++ [Event.changeInstances] := by
  simp [detachInstance, hinput, hsub, spliceFirst_of_not_mem s.instances inst hmem,
    mapDelete_of_get_none s.editorInputs _ hinput,
    mapDelete_of_get_none s.instanceDisposables _ hsub]

/-- Witness for the amended C5 at `initialState`. -/
theorem detachInstance_unmanaged_frame_witness :
    (detachInstance initialState instA).editorInputs = initialState.editorInputs ∧
    (detachInstance initialState instA).instances = initialState.instances ∧
    (detachInstance initialState instA).launchConfigs = initialState.launchConfigs ∧
    (detachInstance initialState instA).instanceDisposables
      = initialState.instanceDisposables ∧
    (detachInstance initialState instA).activeInstanceIndex
      = initialState.activeInstanceIndex ∧
    (detachInstance initialState instA).disposedInputs = initialState.disposedInputs ∧
    (detachInstance initialState instA).detachedInputs = initialState.detachedInputs ∧
    (detachInstance initialState instA).disposedSubscriptions
      = initialState.disposedSubscriptions ∧
    (detachInstance initialState instA).events
      = initialState.events ++ [Event.changeInstances] :=
  detachInstance_unmanaged_frame initialState instA (by decide) (by decide) (by decide)

/-! ### C6 -/

/-- C6: a `getOrCreateResource` call whose input is a bare URI with no cached
entry matches neither the detachable-backend-descriptor branch nor the
live-session branch; the method does not throw (it is total) and returns the
synthetic placeholder identity of source line 211. -/
theorem getOrCreateResource_uri_placeholder (s : TerminalEditorService) (u : URI)
    (hmiss : mapGet s.editorInputs u.path = none) :
    (getOrCreateResource s (InstanceOrUri.uri u)).1
      = Sum.inl (getTerminalUri "dfsldjfkdslfsjdflksdjf" 2 "fake") := by
  simp [getOrCreateResource, InstanceOrUri.resource, hmiss]

/-- Witness for C6 at `initialState` with the cross-window identity `u1`. -/
theorem getOrCreateResource_uri_placeholder_witness :
    (getOrCreateResource initialState (InstanceOrUri.uri u1)).1
      = Sum.inl (getTerminalUri "dfsldjfkdslfsjdflksdjf" 2 "fake") :=
  getOrCreateResource_uri_placeholder initialState u1 (by decide)

/-! ### C8 -/

/-- C8: resolving a resource whose identity has neither a cached live session
nor a stored launch configuration yields the hard error of source line 297, and
the returned state is exactly the input state (the failed call changes
nothing). -/
theorem resolveResource_no_config_error (s : TerminalEditorService) (u : URI)
    (hcfg : mapGet s.launchConfigs u.path = none)
    (_hcache : mapGet s.editorInputs u.path = none) :
    resolveResource s u = (Except.error "could not resolve resource", s) := by
  simp [resolveResource, hcfg]

/-- Witness for C8 at `initialState`. -/
theorem resolveResource_no_config_error_witness :
    resolveResource initialState u1 = (Except.error "could not resolve resource", initialState) :=
  resolveResource_no_config_error initialState u1 (by decide) (by decide)

/-! ### C7 -/

/-- C7: with the shutdown flag set, `detachInstance` on a managed instance does
not dispose the editor input (the disposal log is unchanged), but still removes
the entry from the editor-input map, removes the instance from the live list,
removes the subscription entry and disposes both cleanup subscriptions. -/
theorem detachInstance_shutdown_spec (s : TerminalEditorService)
    (inst : ITerminalInstance) (input : TerminalEditorInput) (e : SubEntry)
    (hshut : s.isShuttingDown = true)
    (_hinput : mapGet s.editorInputs inst.resource.path = some input)
    (hsub : mapGet s.instanceDisposables inst.resource.path = some e)
    (hcount : s.instances.count inst = 1) :
    (detachInstance s inst).disposedInputs = s.disposedInputs ∧
    mapGet (detachInstance s inst).editorInputs inst.resource.path = none ∧
    inst ∉ (detachInstance s inst).instances ∧
    mapGet (detachInstance s inst).instanceDisposables inst.resource.path = none ∧
    (detachInstance s inst).disposedSubscriptions
      = s.disposedSubscriptions ++ [e.focusSubId, e.disposeSubId] := by
  refine ⟨?_, ?_, ?_, ?_, ?_⟩
  · simp [detachInstance, hshut]
  · simp [detachInstance, mapGet_mapDelete_self]
  · simp only [detachInstance]
    exact spliceFirst_not_mem_of_count_one s.instances inst hcount
  · simp [detachInstance, mapGet_mapDelete_self]
  · simp [detachInstance, hsub]

/-- Witness for C7 at the reachable shutdown state `sShut`. -/
theorem detachInstance_shutdown_spec_witness :
    (detachInstance sShut instA).disposedInputs = sShut.disposedInputs ∧
    mapGet (detachInstance sShut instA).editorInputs instA.resource.path = none ∧
    instA ∉ (detachInstance sShut instA).instances ∧
    mapGet (detachInstance sShut instA).instanceDisposables instA.resource.path = none ∧
    (detachInstance sShut instA).disposedSubscriptions
      = sShut.disposedSubscriptions ++ [2, 3] :=
  detachInstance_shutdown_spec sShut instA inputA ⟨2, 3, instA⟩
    (by decide) (by decide) (by decide) (by decide)

/-! ### C9 -/

/-- C9: `setActiveInstance` sets the active index by linear search in the live
list; a session not in the list clears the index to `-1` (the getter then yields
the absent value), a session in the list becomes the active one, and every call
fires the active-changed notification carrying the resolved current active
session; nothing else changes. -/
theorem setActiveInstance_spec (s : TerminalEditorService) (inst : ITerminalInstance) :
    (inst ∉ s.instances → (setActiveInstance s inst).activeInstanceIndex = -1 ∧
       activeInstance (setActiveInstance s inst) = none) ∧
    (inst ∈ s.instances → activeInstance (setActiveInstance s inst) = some inst) ∧
    (setActiveInstance s inst).events
      = s.events ++ [Event.changeActiveInstance (activeInstance (setActiveInstance s inst))] ∧
    (setActiveInstance s inst).instances = s.instances ∧
    (setActiveInstance s inst).editorInputs = s.editorInputs := by
  refine ⟨?_, ?_, ?_, ?_, ?_⟩
  · intro hmem
    have hidx : jsFindIndex (fun e => decide (e = inst)) s.instances = -1 := by
      simp [jsFindIndex, findIdxO_eq_none_of_not_mem s.instances inst hmem]
    constructor
    · simp [setActiveInstance, _setActiveInstance, hidx]
    · simp [setActiveInstance, _setActiveInstance, activeInstance, hidx]
  · intro hmem
    obtain ⟨i, hi⟩ := findIdxO_isSome_of_mem s.instances inst hmem
    have hidx : jsFindIndex (fun e => decide (e = inst)) s.instances = Int.ofNat i := by
      simp [jsFindIndex, hi]
    have hget : s.instances.get? i = some inst := findIdxO_get s.instances inst i hi
    have hlen : s.instances.length ≠ 0 := by
      intro hc
      rw [List.length_eq_zero] at hc
      rw [hc] at hmem
      cases hmem
    have hcast : Int.ofNat i = (i : Int) := rfl
    have hne : Int.ofNat i ≠ -1 := by rw [hcast]; omega
    have hnneg : ¬ (Int.ofNat i < 0) := by rw [hcast]; omega
    simpa [setActiveInstance, _setActiveInstance, activeInstance, tsIndex,
      hidx, hlen, hne, hnneg] using hget
  · simp [setActiveInstance, _setActiveInstance, activeInstance]
  · simp [setActiveInstance, _setActiveInstance]
  · simp [setActiveInstance, _setActiveInstance]

/-- Witness for C9: setting the unmanaged `instB` active in the reachable state
`sA` clears the index, and setting the managed `instA` active yields it. -/
theorem setActiveInstance_spec_witness :
    ((setActiveInstance sA instB).activeInstanceIndex = -1 ∧
      activeInstance (setActiveInstance sA instB) = none) ∧
    activeInstance (setActiveInstance sA instA) = some instA :=
  ⟨(setActiveInstance_spec sA instB).1 (by decide),
   (setActiveInstance_spec sA instA).2.1 (by decide)⟩

/-! ### C10 -/

/-- C10: the visible-editors-changed reconciliation touches only the
editor-input map and the live list: the subscription map, the event log, the
fresh-id supply and the launch-config map are unchanged (so no cleanup
subscriptions are wired and no session-list-changed notification fires), the
state either stays as-is or gains exactly one adopted input/instance pair, and
the disposal of an adopted instance whose identity has no subscription entry
never reaches the dispose-notification/detach path. -/
theorem onDidVisibleEditorsChange_frame (s : TerminalEditorService)
    (editors : List EditorInput) :
    ((onDidVisibleEditorsChange s editors).instanceDisposables = s.instanceDisposables ∧
     (onDidVisibleEditorsChange s editors).events = s.events ∧
     (onDidVisibleEditorsChange s editors).nextId = s.nextId ∧
     (onDidVisibleEditorsChange s editors).launchConfigs = s.launchConfigs) ∧
    (onDidVisibleEditorsChange s editors = s ∨
     ∃ t ti, t.terminalInstance = some ti ∧
       (onDidVisibleEditorsChange s editors).editorInputs
         = mapSet s.editorInputs ti.resource.path t ∧
       (onDidVisibleEditorsChange s editors).instances = s.instances ++ [ti]) ∧
    (∀ inst, mapGet s.instanceDisposables inst.resource.path = none →
       handleInstanceDisposed (onDidVisibleEditorsChange s editors) inst
         = onDidVisibleEditorsChange s editors) := by
  have hframe :
      (onDidVisibleEditorsChange s editors).instanceDisposables = s.instanceDisposables ∧
      (onDidVisibleEditorsChange s editors).events = s.events ∧
      (onDidVisibleEditorsChange s editors).nextId = s.nextId ∧
      (onDidVisibleEditorsChange s editors).launchConfigs = s.launchConfigs := by
    simp only [onDidVisibleEditorsChange]
    split
    · next t ti heq =>
      split
      · simp
      · simp
    · simp
  refine ⟨hframe, ?_, ?_⟩
  · simp only [onDidVisibleEditorsChange]
    split
    · next t heq =>
      split
      · next ti hti => exact Or.inr ⟨t, ti, hti, rfl, rfl⟩
      · exact Or.inl rfl
    · exact Or.inl rfl
  · intro inst hnone
    simp only [handleInstanceDisposed, hframe.1, hnone]

/-- Witness for C10: `initialState` adopts the out-of-band tab `inputC`; the
adopted instance's later disposal leaves the resulting state untouched. -/
theorem onDidVisibleEditorsChange_frame_witness :
    handleInstanceDisposed
        (onDidVisibleEditorsChange initialState [EditorInput.terminal inputC]) instC
      = onDidVisibleEditorsChange initialState [EditorInput.terminal inputC] :=
  (onDidVisibleEditorsChange_frame initialState [EditorInput.terminal inputC]).2.2
    instC (by decide)

/-! ### C1 -/

theorem getOrCreateResource_preserves_entry (s : TerminalEditorService)
    (x : InstanceOrUri) (k : String) (input : TerminalEditorInput)
    (h : mapGet s.editorInputs k = some input) :
    mapGet ((getOrCreateResource s x).2).editorInputs k = some input := by
  cases x with
  | deserialized d =>
    simp only [getOrCreateResource, InstanceOrUri.resource]
    split
    · exact h
    · next hc =>
      have hne : d.resource.path ≠ k := by
        intro he
        rw [he, h] at hc
        cases hc
      simp only [createInstance, createEditorInput, _registerInstance]
      rw [mapGet_mapSet_ne _ _ _ _ hne]
      exact h
  | uri u =>
    simp only [getOrCreateResource, InstanceOrUri.resource]
    split
    · exact h
    · split
      · split <;> exact h
      · exact h
  | inst i0 =>
    simp only [getOrCreateResource, InstanceOrUri.resource]
    split
    · exact h
    · next hc =>
      have hne : i0.resource.path ≠ k := by
        intro he
        rw [he, h] at hc
        cases hc
      simp only [createEditorInput, _registerInstance]
      rw [mapGet_mapSet_ne _ _ _ _ hne]
      exact h

theorem runGetOrCreates_preserves_entry (xs : List InstanceOrUri)
    (s : TerminalEditorService) (k : String) (input : TerminalEditorInput)
    (h : mapGet s.editorInputs k = some input) :
    mapGet (runGetOrCreates s xs).editorInputs k = some input := by
  induction xs generalizing s with
  | nil => exact h
  | cons x rest ih =>
    exact ih ((getOrCreateResource s x).2)
      (getOrCreateResource_preserves_entry s x k input h)

/-- C1: (i) a `getOrCreateResource` call that registers an entry for an identity
caches exactly the returned editor input and fires the session-list-changed
notification exactly once; (ii) the entry survives any further sequence of
`getOrCreateResource` calls; (iii) a call on an already-registered identity is a
pure cache hit: it returns the identical cached editor input and leaves the
whole state — event log included — unchanged, so no notification fires. -/
theorem getOrCreateResource_cache_idempotent (s : TerminalEditorService) (k : String) :
    (∀ x input s', mapGet s.editorInputs k = none →
       (InstanceOrUri.resource x).path = k →
       getOrCreateResource s x = (Sum.inr input, s') →
       mapGet s'.editorInputs k = some input ∧
       s'.events = s.events ++ [Event.changeInstances]) ∧
    (∀ xs input, mapGet s.editorInputs k = some input →
       mapGet (runGetOrCreates s xs).editorInputs k = some input) ∧
    (∀ x input, mapGet s.editorInputs k = some input →
       (InstanceOrUri.resource x).path = k →
       getOrCreateResource s x = (Sum.inr input, s)) := by
  refine ⟨?_, ?_, ?_⟩
  · intro x input s' hmiss hkey heq
    cases x with
    | deserialized d =>
      simp only [InstanceOrUri.resource] at hkey
      simp only [getOrCreateResource, InstanceOrUri.resource, hkey, hmiss,
        createInstance, createEditorInput, _registerInstance, Prod.mk.injEq,
        Sum.inr.injEq] at heq
      obtain ⟨hin, hst⟩ := heq
      subst hin
      subst hst
      exact ⟨mapGet_mapSet_self _ _ _, rfl⟩
    | uri u =>
      simp only [InstanceOrUri.resource] at hkey
      simp only [getOrCreateResource, InstanceOrUri.resource, hkey, hmiss] at heq
      have hfst := congrArg Prod.fst heq
      simp only [Prod.fst] at hfst
      cases hfst
    | inst i0 =>
      simp only [InstanceOrUri.resource] at hkey
      simp only [getOrCreateResource, InstanceOrUri.resource, hkey, hmiss,
        createEditorInput, _registerInstance, Prod.mk.injEq, Sum.inr.injEq] at heq
      obtain ⟨hin, hst⟩ := heq
      subst hin
      subst hst
      exact ⟨mapGet_mapSet_self _ _ _, rfl⟩
  · intro xs input h
    exact runGetOrCreates_preserves_entry xs s k input h
  · intro x input hhit hkey
    simp only [getOrCreateResource, hkey, hhit]

/-- Witness for C1 at the reachable state `sA`: a repeated call for `instA`'s
identity returns the cached `inputA` and leaves the state unchanged, and the
cached entry survives a further unrelated call. -/
theorem getOrCreateResource_cache_idempotent_witness :
    getOrCreateResource sA (InstanceOrUri.inst instA) = (Sum.inr inputA, sA) ∧
    mapGet (runGetOrCreates sA [InstanceOrUri.inst instB]).editorInputs uA.path
      = some inputA :=
  ⟨(getOrCreateResource_cache_idempotent sA uA.path).2.2 (InstanceOrUri.inst instA)
      inputA (by decide) (by decide),
   (getOrCreateResource_cache_idempotent sA uA.path).2.1 [InstanceOrUri.inst instB]
      inputA (by decide)⟩

/-! ### C4 -/

/-- Reachable state exhibiting a duplicated identity in the live list: a
cross-window `getOrCreateResource` stores a launch configuration for `/w1/5`
once its detach request is answered, and two subsequent `resolveResource` calls
each materialize and register a fresh instance under that same identity (the
launch configuration is never cleared). -/
def sDup : TerminalEditorService :=
  run initialState [Op.getOrCreate (InstanceOrUri.uri u1),
    Op.deliverDetach "/w1/5" 42, Op.resolve u1, Op.resolve u1]

/-- C4 counterexample: the reachable state `sDup` carries two live-list entries
keyed by the identity `/w1/5`. -/
theorem duplicate_identity_counterexample :
    liveIdentities sDup = ["/w1/5", "/w1/5"] ∧ ¬ (liveIdentities sDup).Nodup := by
  decide

theorem applyOp_editorInputs_shape (s : TerminalEditorService) (op : Op) :
    (applyOp s op).editorInputs = s.editorInputs ∨
    (∃ k v, (applyOp s op).editorInputs = mapSet s.editorInputs k v) ∨
    (∃ k, (applyOp s op).editorInputs = mapDelete s.editorInputs k) := by
  cases op with
  | getOrCreate x =>
    cases x with
    | deserialized d =>
      simp only [applyOp, getOrCreateResource, InstanceOrUri.resource]
      split
      · left; rfl
      · right; left; exact ⟨_, _, rfl⟩
    | uri u =>
      simp only [applyOp, getOrCreateResource, InstanceOrUri.resource]
      split
      · left; rfl
      · left
        split
        · split <;> rfl
        · rfl
    | inst i0 =>
      simp only [applyOp, getOrCreateResource, InstanceOrUri.resource]
      split
      · left; rfl
      · right; left; exact ⟨_, _, rfl⟩
  | resolve u =>
    simp only [applyOp, resolveResource]
    split
    · right; left; exact ⟨_, _, rfl⟩
    · left; rfl
  | detach i =>
    right; right; exact ⟨_, rfl⟩
  | deliverDetach k pid =>
    simp only [applyOp, deliverDetachResponse]
    split <;> (left; rfl)
  | setActive i =>
    left; rfl
  | visibleChange es =>
    simp only [applyOp, onDidVisibleEditorsChange]
    split
    · split
      · right; left; exact ⟨_, _, rfl⟩
      · left; rfl
    · left; rfl
  | closeEditor e =>
    cases e with
    | terminal t =>
      simp only [applyOp, onDidCloseEditor]
      split <;> (left; rfl)
    | other n => left; rfl
  | activeEditorChange e =>
    simp only [applyOp, onDidActiveEditorChange]
    split
    · split <;> (left; rfl)
    · left; rfl
  | shutdown =>
    left; rfl
  | instDisposed i =>
    simp only [applyOp, handleInstanceDisposed]
    split
    · split
      · right; right; exact ⟨_, rfl⟩
      · left; rfl
    · left; rfl
  | instFocused i =>
    simp only [applyOp, handleInstanceFocus]
    split
    · split <;> (left; rfl)
    · left; rfl

theorem run_editorInputs_keys_nodup (ops : List Op) (s : TerminalEditorService)
    (h : (mapKeys s.editorInputs).Nodup) :
    (mapKeys (run s ops).editorInputs).Nodup := by
  induction ops generalizing s with
  | nil => exact h
  | cons op rest ih =>
    have hnext : (mapKeys (applyOp s op).editorInputs).Nodup := by
      rcases applyOp_editorInputs_shape s op with h1 | ⟨k, v, h1⟩ | ⟨k, h1⟩
      · rw [h1]; exact h
      · rw [h1]; exact mapKeys_nodup_mapSet _ _ _ h
      · rw [h1]; exact mapKeys_nodup_mapDelete _ _ h
    exact ih (applyOp s op) hnext

/-- C4 (amended): in every reachable state the editor-input map holds at most
one Registry Entry per identity (its keys are pairwise distinct); the live
session list, however, can acquire two entries keyed by the same identity (see
the counterexample), because `resolveResource` neither consults the editor-input
cache nor clears the stored launch configuration. -/
theorem editorInputs_at_most_one_entry (ops : List Op) :
    (mapKeys (run initialState ops).editorInputs).Nodup :=
  run_editorInputs_keys_nodup ops initialState (by decide)

end TerminalEditorServiceModel
